import Mathlib

/-!
Verification of the sirius HTTP load tester (src/sirius.py, src/gui/worker.py).

Shallow embedding conventions:
* Python floats are modelled as exact rationals (ℚ); the claims under study are
  about branch structure and exact formulas, not float rounding.
* `float('nan')` / missing dictionary keys / `None` are modelled as `Option.none`.
* `sorted(...)` is modelled by `List.insertionSort (· ≤ ·)`: on a totally
  ordered value type the resulting value sequence coincides with Python's
  stable sort.
* `collections.Counter` is modelled as an association list of (key, count)
  pairs built from the first-occurrence-deduplicated key list; the claims
  about histograms are key-set properties, independent of iteration order.
* The millisecond mirror fields of the summary (`min_ms`, ... — the `_s`
  fields times 1000, decimally rounded) are not separately modelled: their
  presence coincides with the `_s` fields and no claim concerns their values.
* Python's `statistics.stdev` is the square root of the sample variance;
  square roots leave ℚ, so the summary carries the squared value
  (`stdevSq_s`, the sample variance).  `stdev = 0 ↔ stdevSq = 0` and
  presence/absence coincide, which is all the claims use.
-/

namespace Sirius

/-- One per-request result dictionary, as appended by `do_request` in
`run_test` (src/sirius.py lines 91-102) and identically by
`TestWorker.run_test_with_logging` / `run_test_with_formdata`
(src/gui/worker.py lines 124-132 / 146-150).  Missing keys are `none`. -/
structure RequestRecord where
  index : Nat
  status : Option Nat
  time : Option ℚ
  ok : Bool
  bytes : Option Nat
  error : Option String
  start_epoch : Option ℚ
  start_rel_s : Option ℚ
  deriving DecidableEq, Repr

/-- `percentile(sorted_vals, p)` from src/sirius.py lines 48-58.
The empty-list branch returns `float('nan')`, modelled as `none`.
`math.floor` / `math.ceil` return integers; `int(k)` on the `f = c` branch
equals `int(f)` since `k` is then the integer `f ≥ ⌊0⌋`; out-of-range
indexing cannot occur for `p ∈ [0,100]`, mirrored by `getD`. -/
def percentile (sorted_vals : List ℚ) (p : ℚ) : Option ℚ :=
  if sorted_vals.isEmpty then none
  else
    let k : ℚ := ((sorted_vals.length : ℚ) - 1) * (p / 100)
    let f : ℤ := ⌊k⌋
    let c : ℤ := ⌈k⌉
    if f = c then some (sorted_vals.getD f.toNat 0)
    else
      let d0 := sorted_vals.getD f.toNat 0 * ((c : ℚ) - k)
      let d1 := sorted_vals.getD c.toNat 0 * (k - (f : ℚ))
      some (d0 + d1)

/-- `statistics.mean` over a nonempty list: sum divided by length. -/
def listMean (l : List ℚ) : ℚ := l.sum / l.length

/-- `statistics.median` over an already ascending-sorted nonempty list:
middle element for odd length, average of the two middles for even length. -/
def listMedian (l : List ℚ) : ℚ :=
  if l.length % 2 = 1 then l.getD (l.length / 2) 0
  else (l.getD (l.length / 2 - 1) 0 + l.getD (l.length / 2) 0) / 2

/-- `statistics.variance` (the square of `statistics.stdev`): sample variance
with denominator `n-1`. -/
def sampleVariance (l : List ℚ) : ℚ :=
  let m := listMean l
  (l.map (fun x => (x - m) ^ 2)).sum / ((l.length : ℚ) - 1)

/-- Python `min` over a nonempty list (head as seed). -/
def listMin : List ℚ → ℚ
  | [] => 0
  | x :: xs => xs.foldl min x

/-- Python `max` over a nonempty list (head as seed). -/
def listMax : List ℚ → ℚ
  | [] => 0
  | x :: xs => xs.foldl max x

/-- `Counter(r['status'] for r in results if r.get('status') is not None)`
(src/sirius.py line 119), as an association list keyed by the deduplicated
status list. -/
def statusCounts (results : List RequestRecord) : List (Nat × Nat) :=
  let sts := results.filterMap (·.status)
  (sts.dedup).map (fun s => (s, sts.count s))

/-- The summary dictionary produced by `summarize` (src/sirius.py lines
114-186), restricted to the seconds-valued fields (see header comment). -/
structure SummaryStats where
  total_requests : Nat
  successful_requests : Nat
  failed_requests : Nat
  total_duration_s : ℚ
  requests_per_second : Option ℚ
  status_counts : List (Nat × Nat)
  min_s : Option ℚ
  max_s : Option ℚ
  mean_s : Option ℚ
  median_s : Option ℚ
  stdevSq_s : Option ℚ
  p50_s : Option ℚ
  p90_s : Option ℚ
  p95_s : Option ℚ
  p99_s : Option ℚ
  deriving DecidableEq, Repr

/-- `sorted([r['time'] for r in results if r.get('time') is not None])`
(src/sirius.py line 118). -/
def resolvedTimes (results : List RequestRecord) : List ℚ :=
  (results.filterMap (·.time)).insertionSort (· ≤ ·)

/-- `summarize(results, total_time)` from src/sirius.py lines 114-186.
`float('nan')` for the zero-duration throughput and the `None` latency
fields of the empty-`times` branch are both modelled as `none`. -/
def summarize (results : List RequestRecord) (total_time : ℚ) : SummaryStats :=
  let total := results.length
  let successes := (results.filter (·.ok)).length
  let times := resolvedTimes results
  let base : SummaryStats :=
    { total_requests := total
      successful_requests := successes
      failed_requests := total - successes
      total_duration_s := total_time
      requests_per_second :=
        if 0 < total_time then some ((total : ℚ) / total_time) else none
      status_counts := statusCounts results
      min_s := none, max_s := none, mean_s := none, median_s := none
      stdevSq_s := none, p50_s := none, p90_s := none, p95_s := none
      p99_s := none }
  if times.isEmpty then base
  else
    { base with
      min_s := some (listMin times)
      max_s := some (listMax times)
      mean_s := some (listMean times)
      median_s := some (listMedian times)
      stdevSq_s := some (if 1 < times.length then sampleVariance times else 0)
      p50_s := percentile times 50
      p90_s := percentile times 90
      p95_s := percentile times 95
      p99_s := percentile times 99 }

/-- Python `int()` float-to-int conversion: truncation toward zero
(`sec = int(rel)`, src/sirius.py line 206). -/
def truncInt (q : ℚ) : ℤ := if 0 ≤ q then ⌊q⌋ else ⌈q⌉

/-- The bucket keys of the `buckets` dictionary (with multiplicity):
`int(rel)` for every record carrying a `start_rel_s`. -/
def bucketKeys (results : List RequestRecord) : List ℤ :=
  results.filterMap (fun r => r.start_rel_s.map truncInt)

/-- The records landing in bucket `s`, in list order.  The source builds the
bucket incrementally over one pass (src/sirius.py lines 202-217); filtering
the list per emitted second yields the same contents in the same order. -/
def bucketRecords (results : List RequestRecord) (s : ℤ) : List RequestRecord :=
  results.filter (fun r => decide (r.start_rel_s.map truncInt = some s))

/-- `max(buckets.keys(), default=0)` (src/sirius.py line 220). -/
def maxKeyD (l : List ℤ) : ℤ :=
  match l with
  | [] => 0
  | x :: xs => xs.foldl max x

/-- `max_sec = int(math.ceil(total_time)) if total_time and total_time > 0
else max(buckets.keys(), default=0)` (src/sirius.py line 220).  For a float,
`total_time and total_time > 0` is truthy exactly when `0 < total_time`. -/
def maxSec (results : List RequestRecord) (total_time : ℚ) : ℤ :=
  if 0 < total_time then ⌈total_time⌉ else maxKeyD (bucketKeys results)

/-- `base_epoch = min(epochs) if epochs else time.time()` (src/sirius.py
lines 198-199).  The wall-clock fallback (unreachable when any record
carries an epoch, hence for every dispatcher-produced result set) is
modelled as `0`. -/
def baseEpoch (results : List RequestRecord) : ℚ :=
  match results.filterMap (·.start_epoch) with
  | [] => 0
  | x :: xs => xs.foldl min x

/-- One per-second entry of the time series (src/sirius.py lines 224-246). -/
structure TimeWindow where
  second : Nat
  start_epoch : ℚ
  count : Nat
  successes : Nat
  failures : Nat
  requests_per_second : Nat
  status_counts : List (Nat × Nat)
  avg_latency_s : Option ℚ
  p50_s : Option ℚ
  p90_s : Option ℚ
  deriving DecidableEq, Repr

/-- The entry emitted for second `s` (src/sirius.py lines 222-247): bucket
lookup with a zero-filled default, sorted latencies, `None` (here `none`)
latency fields when the bucket holds no resolved latencies. -/
def mkWindow (results : List RequestRecord) (base : ℚ) (s : Nat) : TimeWindow :=
  let b := bucketRecords results s
  let lats := (b.filterMap (·.time)).insertionSort (· ≤ ·)
  { second := s
    start_epoch := base + s
    count := b.length
    successes := (b.filter (·.ok)).length
    failures := (b.filter (fun r => !r.ok)).length
    requests_per_second := b.length
    status_counts := statusCounts b
    avg_latency_s := if lats.isEmpty then none else some (listMean lats)
    p50_s := percentile lats 50
    p90_s := percentile lats 90 }

/-- `compute_time_series(results, total_time)` from src/sirius.py lines
189-248: empty input yields `[]`; otherwise one window per second in
`range(0, max_sec + 1)`. -/
def compute_time_series (results : List RequestRecord) (total_time : ℚ) :
    List TimeWindow :=
  if results.isEmpty then []
  else
    let base := baseEpoch results
    (List.range (maxSec results total_time + 1).toNat).map
      (fun s => mkWindow results base s)

/-! ## The dispatcher

`run_test` (src/sirius.py lines 61-111) creates one asyncio task per index
`0..total-1`; each task acquires a counting semaphore initialised to
`concurrency`, performs the request, appends exactly one result record
(success branch lines 91-99 or exception branch lines 101-102), and releases
the semaphore on leaving the `async with` block.  `TestWorker` in
src/gui/worker.py repeats the same structure.  The cooperative scheduler is
modelled as a small-step transition system: a `start` step admits a pending
index through the gate, a `finish` step resolves a running index to its
terminal record and returns the permit.  The network is abstracted as an
oracle fixing each index's outcome. -/

/-- Terminal outcome of one attempt, as decided by the transport. -/
inductive Outcome where
  | success (status : Nat) (elapsed : ℚ) (bytes : Nat) (epoch rel : ℚ)
  | failure (msg : String) (epoch rel : ℚ)
  deriving DecidableEq, Repr

/-- The record appended for index `i` (src/sirius.py lines 91-99 on
response, lines 101-102 on exception; identically src/gui/worker.py). -/
def mkRecord (i : Nat) : Outcome → RequestRecord
  | .success st elapsed bytes epoch rel =>
      { index := i, status := some st, time := some elapsed
        ok := decide (200 ≤ st ∧ st < 400), bytes := some bytes
        error := none, start_epoch := some epoch, start_rel_s := some rel }
  | .failure msg epoch rel =>
      { index := i, status := none, time := none, ok := false
        bytes := none, error := some msg
        start_epoch := some epoch, start_rel_s := some rel }

/-- Scheduler state: indices not yet admitted, indices inside the gate
(network call outstanding), the append-only record list, and the
semaphore's free-permit count. -/
structure DispatchState where
  pending : Finset Nat
  running : Finset Nat
  done : List RequestRecord
  sem : Nat
  deriving DecidableEq

/-- Initial state: all `total` tasks created and pending, no attempt
outstanding, semaphore holding `concurrency` permits. -/
def initState (total concurrency : Nat) : DispatchState :=
  ⟨Finset.range total, ∅, [], concurrency⟩

/-- One scheduler step of the dispatch loop. -/
inductive DStep (tr : Nat → Outcome) : DispatchState → DispatchState → Prop
  | start (i : Nat) (s : DispatchState) (hp : i ∈ s.pending) (hs : 0 < s.sem) :
      DStep tr s ⟨s.pending.erase i, insert i s.running, s.done, s.sem - 1⟩
  | finish (i : Nat) (s : DispatchState) (hr : i ∈ s.running) :
      DStep tr s
        ⟨s.pending, s.running.erase i, s.done ++ [mkRecord i (tr i)], s.sem + 1⟩

/-- Reachability from the initial state of a `total`/`concurrency` run. -/
def Reach (tr : Nat → Outcome) (total concurrency : Nat)
    (s : DispatchState) : Prop :=
  Relation.ReflTransGen (DStep tr) (initState total concurrency) s

/-! ## Helper lemmas -/

theorem ceil_via_floor (a : ℚ) : ⌈a⌉ = -⌊-a⌋ := by
  rw [Int.floor_neg, neg_neg]

lemma summarize_total (rs : List RequestRecord) (t : ℚ) :
    (summarize rs t).total_requests = rs.length := by
  simp only [summarize]
  split <;> rfl

lemma summarize_successful (rs : List RequestRecord) (t : ℚ) :
    (summarize rs t).successful_requests = (rs.filter (·.ok)).length := by
  simp only [summarize]
  split <;> rfl

lemma summarize_failed (rs : List RequestRecord) (t : ℚ) :
    (summarize rs t).failed_requests = rs.length - (rs.filter (·.ok)).length := by
  simp only [summarize]
  split <;> rfl

lemma summarize_rps (rs : List RequestRecord) (t : ℚ) :
    (summarize rs t).requests_per_second =
      if 0 < t then some ((rs.length : ℚ) / t) else none := by
  simp only [summarize]
  split <;> rfl

lemma summarize_status_counts (rs : List RequestRecord) (t : ℚ) :
    (summarize rs t).status_counts = statusCounts rs := by
  simp only [summarize]
  split <;> rfl

end Sirius

namespace Sirius

/-! ## Claims -/

/-- C5: `percentile` applied to the empty list yields `none` (the source's
`float('nan')` — a non-numeric value, not a number and not an exception),
for every `p`. -/
theorem percentile_empty_absent (p : ℚ) : percentile [] p = none := rfl

/-- C10: in every summary, `successful_requests + failed_requests =
total_requests`, where `total_requests` is the number of input records and
`successful_requests` counts exactly the records with `ok = true`. -/
theorem summarize_count_partition (rs : List RequestRecord) (t : ℚ) :
    (summarize rs t).successful_requests + (summarize rs t).failed_requests =
        (summarize rs t).total_requests ∧
      (summarize rs t).successful_requests = (rs.filter (·.ok)).length := by
  have hle : (rs.filter (·.ok)).length ≤ rs.length := List.length_filter_le _ _
  rw [summarize_total, summarize_successful, summarize_failed]
  exact ⟨by omega, rfl⟩

/-- C6: the summary's `requests_per_second` equals
`total_count / total_duration` when `total_duration > 0` and is the absent
(non-numeric) value when `total_duration = 0`; no division by zero is
performed. -/
theorem summarize_rps_guard (rs : List RequestRecord) (t : ℚ) :
    (0 < t →
        (summarize rs t).requests_per_second = some ((rs.length : ℚ) / t)) ∧
      (t = 0 → (summarize rs t).requests_per_second = none) := by
  rw [summarize_rps]
  constructor
  · intro h
    simp [h]
  · intro h
    simp [h]

/-- A sample successful record (status 200, latency 1/10 s, started at
offset 3/10 s). -/
def recOk : RequestRecord :=
  { index := 0, status := some 200, time := some (1 / 10), ok := true
    bytes := some 5, error := none, start_epoch := some 1000
    start_rel_s := some (3 / 10) }

/-- Witness for C6 at the one-record run with durations 2 and 0. -/
theorem summarize_rps_guard_witness :
    (summarize [recOk] 2).requests_per_second = some ((1 : ℚ) / 2) ∧
      (summarize [recOk] 0).requests_per_second = none := by
  constructor
  · have h := (summarize_rps_guard [recOk] 2).1 (by norm_num)
    simpa using h
  · exact (summarize_rps_guard [recOk] 0).2 rfl

/-- C4: for a nonempty ascending-sorted `v` and `p ∈ [0,100]`, with
`k = (len(v)-1)·p/100`, `percentile` returns `v[k]` when `k` is an integer
(`⌊k⌋ = ⌈k⌉`) and otherwise the linear interpolation
`v[⌊k⌋]·(⌈k⌉-k) + v[⌈k⌉]·(k-⌊k⌋)`, with both indices in range; in
particular `percentile [10,20,30,40] 50 = 25` and `percentile [1] 99 = 1`. -/
theorem percentile_interpolation :
    (∀ (v : List ℚ) (p : ℚ), v ≠ [] → List.Sorted (· ≤ ·) v → 0 ≤ p →
      p ≤ 100 →
      let k : ℚ := ((v.length : ℚ) - 1) * (p / 100)
      ∃ (hf : (⌊k⌋).toNat < v.length) (hc : (⌈k⌉).toNat < v.length),
        percentile v p = some (if ⌊k⌋ = ⌈k⌉ then v.get ⟨(⌊k⌋).toNat, hf⟩
          else v.get ⟨(⌊k⌋).toNat, hf⟩ * ((⌈k⌉ : ℚ) - k)
            + v.get ⟨(⌈k⌉).toNat, hc⟩ * (k - (⌊k⌋ : ℚ)))) ∧
      percentile [10, 20, 30, 40] 50 = some 25 ∧
      percentile [1] 99 = some 1 := by
  refine ⟨?_, ?_, ?_⟩
  · intro v p hne hs hp0 hp100 k
    have hn : 1 ≤ v.length := List.length_pos.mpr hne
    have hn1 : (0 : ℚ) ≤ (v.length : ℚ) - 1 := by
      have h1 : (1 : ℚ) ≤ (v.length : ℚ) := by exact_mod_cast hn
      linarith
    have hk0 : (0 : ℚ) ≤ k := by
      apply mul_nonneg hn1
      positivity
    have hk1 : k ≤ (v.length : ℚ) - 1 := by
      have hp1 : p / 100 ≤ 1 := by
        rw [div_le_one (by norm_num : (0 : ℚ) < 100)]
        exact hp100
      calc k ≤ ((v.length : ℚ) - 1) * 1 := by
                apply mul_le_mul_of_nonneg_left hp1 hn1
        _ = (v.length : ℚ) - 1 := mul_one _
    have hceil : ⌈k⌉ ≤ (v.length : ℤ) - 1 := by
      rw [Int.ceil_le]
      push_cast
      exact hk1
    have hceil0 : 0 ≤ ⌈k⌉ := Int.ceil_nonneg hk0
    have hfloor0 : 0 ≤ ⌊k⌋ := Int.floor_nonneg.mpr hk0
    have hfloor : ⌊k⌋ ≤ ⌈k⌉ := Int.floor_le_ceil k
    have hc : (⌈k⌉).toNat < v.length := by omega
    have hf : (⌊k⌋).toNat < v.length := by omega
    refine ⟨hf, hc, ?_⟩
    rw [percentile]
    simp only [List.isEmpty_iff, hne, if_false]
    split
    · rw [List.getD_eq_getElem _ _ hf]
      rfl
    · rw [List.getD_eq_getElem _ _ hf, List.getD_eq_getElem _ _ hc]
      rfl
  · norm_num [percentile, ceil_via_floor]
    simp
    norm_num
  · norm_num [percentile, ceil_via_floor]

/-- Witness for C4's interpolation clause at `v = [3,4]`, `p = 50`
(`k = 1/2`, interpolating between indices 0 and 1). -/
theorem percentile_interpolation_witness :
    percentile [3, 4] 50 = some (7 / 2) := by
  obtain ⟨hf, hc, h⟩ := percentile_interpolation.1 [3, 4] 50 (by decide)
    (by norm_num [List.sorted_cons]) (by norm_num) (by norm_num)
  rw [h]
  norm_num [ceil_via_floor]

lemma summarize_min (rs : List RequestRecord) (t : ℚ) :
    (summarize rs t).min_s = if (resolvedTimes rs).isEmpty then none
      else some (listMin (resolvedTimes rs)) := by
  simp only [summarize]
  split <;> rfl

lemma summarize_max (rs : List RequestRecord) (t : ℚ) :
    (summarize rs t).max_s = if (resolvedTimes rs).isEmpty then none
      else some (listMax (resolvedTimes rs)) := by
  simp only [summarize]
  split <;> rfl

lemma summarize_mean (rs : List RequestRecord) (t : ℚ) :
    (summarize rs t).mean_s = if (resolvedTimes rs).isEmpty then none
      else some (listMean (resolvedTimes rs)) := by
  simp only [summarize]
  split <;> rfl

lemma summarize_median (rs : List RequestRecord) (t : ℚ) :
    (summarize rs t).median_s = if (resolvedTimes rs).isEmpty then none
      else some (listMedian (resolvedTimes rs)) := by
  simp only [summarize]
  split <;> rfl

lemma summarize_stdevSq (rs : List RequestRecord) (t : ℚ) :
    (summarize rs t).stdevSq_s = if (resolvedTimes rs).isEmpty then none
      else some (if 1 < (resolvedTimes rs).length
        then sampleVariance (resolvedTimes rs) else 0) := by
  simp only [summarize]
  split <;> rfl

lemma summarize_p50 (rs : List RequestRecord) (t : ℚ) :
    (summarize rs t).p50_s = if (resolvedTimes rs).isEmpty then none
      else percentile (resolvedTimes rs) 50 := by
  simp only [summarize]
  split <;> rfl

lemma summarize_p90 (rs : List RequestRecord) (t : ℚ) :
    (summarize rs t).p90_s = if (resolvedTimes rs).isEmpty then none
      else percentile (resolvedTimes rs) 90 := by
  simp only [summarize]
  split <;> rfl

lemma summarize_p95 (rs : List RequestRecord) (t : ℚ) :
    (summarize rs t).p95_s = if (resolvedTimes rs).isEmpty then none
      else percentile (resolvedTimes rs) 95 := by
  simp only [summarize]
  split <;> rfl

lemma summarize_p99 (rs : List RequestRecord) (t : ℚ) :
    (summarize rs t).p99_s = if (resolvedTimes rs).isEmpty then none
      else percentile (resolvedTimes rs) 99 := by
  simp only [summarize]
  split <;> rfl

lemma resolvedTimes_length (rs : List RequestRecord) :
    (resolvedTimes rs).length = (rs.filterMap (·.time)).length :=
  List.length_insertionSort _ _

lemma statusCounts_keys {rs : List RequestRecord} {st c : Nat}
    (h : (st, c) ∈ statusCounts rs) : ∃ r ∈ rs, r.status = some st := by
  simp only [statusCounts, List.mem_map] at h
  obtain ⟨s, hs, heq⟩ := h
  obtain ⟨rfl, -⟩ := Prod.mk.injEq .. ▸ heq
  exact List.mem_filterMap.mp (List.mem_dedup.mp hs)

/-- C7: over the `n` records with a resolved elapsed time, the summarised
dispersion is the sample variance with denominator `n-1` when `n > 1`
(its square root being the sample standard deviation), is `0` when
`n = 1`, and when `n = 0` every latency field is absent; the status
histogram only ever contains statuses of records that carry a concrete
status. -/
theorem summarize_dispersion_and_absence (rs : List RequestRecord) (t : ℚ) :
    (1 < (rs.filterMap (·.time)).length →
        (summarize rs t).stdevSq_s = some
          (((resolvedTimes rs).map
              (fun x => (x - listMean (resolvedTimes rs)) ^ 2)).sum /
            (((resolvedTimes rs).length : ℚ) - 1))) ∧
      ((rs.filterMap (·.time)).length = 1 →
        (summarize rs t).stdevSq_s = some 0) ∧
      ((rs.filterMap (·.time)).length = 0 →
        (summarize rs t).min_s = none ∧ (summarize rs t).max_s = none ∧
          (summarize rs t).mean_s = none ∧
          (summarize rs t).median_s = none ∧
          (summarize rs t).stdevSq_s = none ∧
          (summarize rs t).p50_s = none ∧ (summarize rs t).p90_s = none ∧
          (summarize rs t).p95_s = none ∧ (summarize rs t).p99_s = none) ∧
      (∀ st c : Nat, (st, c) ∈ (summarize rs t).status_counts →
        ∃ r ∈ rs, r.status = some st) := by
  have hlen := resolvedTimes_length rs
  refine ⟨?_, ?_, ?_, ?_⟩
  · intro h1
    have hne : ¬(resolvedTimes rs).isEmpty := by
      rw [List.isEmpty_iff_length_eq_zero]
      omega
    rw [summarize_stdevSq, if_neg hne, if_pos (by omega)]
    rfl
  · intro h1
    have hne : ¬(resolvedTimes rs).isEmpty := by
      rw [List.isEmpty_iff_length_eq_zero]
      omega
    rw [summarize_stdevSq, if_neg hne, if_neg (by omega)]
  · intro h0
    have he : (resolvedTimes rs).isEmpty := by
      rw [List.isEmpty_iff_length_eq_zero]
      omega
    rw [summarize_min, summarize_max, summarize_mean, summarize_median,
      summarize_stdevSq, summarize_p50, summarize_p90, summarize_p95,
      summarize_p99]
    simp [he]
  · intro st c h
    rw [summarize_status_counts] at h
    exact statusCounts_keys h

/-- A sample error record (transport failure: no status, no elapsed). -/
def recErr : RequestRecord :=
  { index := 2, status := none, time := none, ok := false
    bytes := none, error := some "Cannot connect to host"
    start_epoch := some 1002, start_rel_s := some (1 / 2) }

/-- A second sample successful record (latency 3/10 s). -/
def recOk2 : RequestRecord :=
  { index := 3, status := some 200, time := some (3 / 10), ok := true
    bytes := some 5, error := none, start_epoch := some 1003
    start_rel_s := some (6 / 10) }

/-- Witness for C7 at concrete record lists with two, one, and zero
resolved latencies, and with a concrete histogram entry. -/
theorem summarize_dispersion_witness :
    (summarize [recOk, recOk2] 1).stdevSq_s = some (1 / 50) ∧
      (summarize [recOk] 1).stdevSq_s = some 0 ∧
      (summarize [recErr] 1).min_s = none ∧
      (∃ r ∈ [recOk], r.status = some 200) := by
  refine ⟨?_, ?_, ?_, ?_⟩
  · have h := (summarize_dispersion_and_absence [recOk, recOk2] 1).1 (by decide)
    rw [h]
    norm_num [resolvedTimes, recOk, recOk2, List.insertionSort,
      List.orderedInsert, listMean]
  · exact (summarize_dispersion_and_absence [recOk] 1).2.1 (by decide)
  · exact ((summarize_dispersion_and_absence [recErr] 1).2.2.1 (by decide)).1
  · refine (summarize_dispersion_and_absence [recOk] 1).2.2.2 200 1 ?_
    rw [summarize_status_counts]
    norm_num [statusCounts, recOk]
    decide

/-- A sample failed-status record landing in bucket 1
(`truncInt (17/10) = 1`). -/
def recLate1 : RequestRecord :=
  { index := 1, status := some 404, time := some (2 / 10), ok := false
    bytes := some 7, error := none, start_epoch := some 1001
    start_rel_s := some (17 / 10) }

/-- A record whose start offset (5 s) lands past `⌈total_time⌉` for a run
with `total_time = 5/2`. -/
def lateRecord : RequestRecord :=
  { index := 0, status := some 200, time := some (1 / 10), ok := true
    bytes := some 3, error := none, start_epoch := some 50
    start_rel_s := some 5 }

lemma compute_time_series_map_second (rs : List RequestRecord) (t : ℚ)
    (h : rs ≠ []) :
    (compute_time_series rs t).map (·.second) =
      List.range ((maxSec rs t + 1).toNat) := by
  rw [compute_time_series, if_neg (by simpa [List.isEmpty_iff] using h)]
  rw [List.map_map]
  exact List.map_id _

lemma compute_time_series_map_count (rs : List RequestRecord) (t : ℚ)
    (h : rs ≠ []) :
    (compute_time_series rs t).map (·.count) =
      (List.range ((maxSec rs t + 1).toNat)).map
        (fun s : Nat => (bucketRecords rs (s : ℤ)).length) := by
  rw [compute_time_series, if_neg (by simpa [List.isEmpty_iff] using h)]
  rw [List.map_map]
  rfl

lemma compute_time_series_length (rs : List RequestRecord) (t : ℚ)
    (h : rs ≠ []) :
    (compute_time_series rs t).length = (maxSec rs t + 1).toNat := by
  rw [compute_time_series, if_neg (by simpa [List.isEmpty_iff] using h)]
  rw [List.length_map, List.length_range]

lemma mem_compute_time_series {rs : List RequestRecord} {t : ℚ}
    {w : TimeWindow} (h : w ∈ compute_time_series rs t) :
    ∃ s : Nat, w = mkWindow rs (baseEpoch rs) s := by
  rw [compute_time_series] at h
  by_cases he : rs.isEmpty
  · rw [if_pos he] at h
    exact absurd h (List.not_mem_nil w)
  · rw [if_neg he] at h
    obtain ⟨s, -, rfl⟩ := List.mem_map.mp h
    exact ⟨s, rfl⟩

lemma demo_maxSec : maxSec [recOk, recLate1] (5 / 2) = 3 := by
  norm_num [maxSec, ceil_via_floor]

lemma demo_bucket0 : bucketRecords [recOk, recLate1] 0 = [recOk] := by
  norm_num [bucketRecords, truncInt, List.filter, recOk, recLate1]

lemma demo_bucket1 : bucketRecords [recOk, recLate1] 1 = [recLate1] := by
  norm_num [bucketRecords, truncInt, List.filter, recOk, recLate1]

lemma demo_bucket2 : bucketRecords [recOk, recLate1] 2 = [] := by
  norm_num [bucketRecords, truncInt, List.filter, recOk, recLate1]

lemma demo_bucket3 : bucketRecords [recOk, recLate1] 3 = [] := by
  norm_num [bucketRecords, truncInt, List.filter, recOk, recLate1]

/-- C8: the time series is an ascending contiguous sequence of windows,
one per integer second starting at 0; a second with no records still
appears, zero-filled (counts 0, empty histogram, absent latency fields);
concretely, for `total_duration = 5/2` with records only in seconds 0 and
1, the emitted windows are exactly seconds `0,1,2,3` with counts
`1,1,0,0`. -/
theorem time_series_gap_free_zero_fill :
    (∀ (rs : List RequestRecord) (t : ℚ), rs ≠ [] →
      (compute_time_series rs t).map (·.second) =
        List.range ((compute_time_series rs t).length)) ∧
      (∀ (rs : List RequestRecord) (t : ℚ) (w : TimeWindow),
        w ∈ compute_time_series rs t → bucketRecords rs (w.second : ℤ) = [] →
        w.count = 0 ∧ w.successes = 0 ∧ w.failures = 0 ∧
          w.status_counts = [] ∧ w.avg_latency_s = none ∧ w.p50_s = none ∧
          w.p90_s = none) ∧
      ((compute_time_series [recOk, recLate1] (5 / 2)).map (·.second) =
          [0, 1, 2, 3] ∧
        (compute_time_series [recOk, recLate1] (5 / 2)).map (·.count) =
          [1, 1, 0, 0]) := by
  refine ⟨?_, ?_, ?_, ?_⟩
  · intro rs t h
    rw [compute_time_series_map_second rs t h, compute_time_series_length rs t h]
  · intro rs t w hw hb
    obtain ⟨s, rfl⟩ := mem_compute_time_series hw
    have hs : bucketRecords rs (s : ℤ) = [] := hb
    refine ⟨?_, ?_, ?_, ?_, ?_, ?_, ?_⟩ <;>
      simp [mkWindow, hs, statusCounts, percentile, listMean]
  · rw [compute_time_series_map_second _ _ (by decide), demo_maxSec]
    decide
  · rw [compute_time_series_map_count _ _ (by decide), demo_maxSec,
      show ((3 : ℤ) + 1).toNat = 4 from rfl,
      show List.range 4 = [0, 1, 2, 3] from rfl]
    rw [List.map_cons, List.map_cons, List.map_cons, List.map_cons,
      List.map_nil]
    rw [show ((0 : ℕ) : ℤ) = 0 from rfl, show ((1 : ℕ) : ℤ) = 1 from rfl,
      show ((2 : ℕ) : ℤ) = 2 from rfl, show ((3 : ℕ) : ℤ) = 3 from rfl]
    rw [demo_bucket0, demo_bucket1, demo_bucket2, demo_bucket3]
    rfl

/-- Witness for C8: the gap-free clause at a one-record run, and the
zero-fill clause at its (empty) window for second 1. -/
theorem time_series_gap_free_witness :
    ((compute_time_series [recOk] 1).map (·.second) =
        List.range ((compute_time_series [recOk] 1).length)) ∧
      (mkWindow [recOk] (baseEpoch [recOk]) 1).count = 0 ∧
      (mkWindow [recOk] (baseEpoch [recOk]) 1).avg_latency_s = none := by
  have hmax : maxSec [recOk] 1 = 1 := by
    norm_num [maxSec, ceil_via_floor]
  have hmem : mkWindow [recOk] (baseEpoch [recOk]) 1 ∈
      compute_time_series [recOk] 1 := by
    rw [compute_time_series, if_neg (by decide)]
    refine List.mem_map.mpr ⟨1, ?_, rfl⟩
    rw [hmax]
    decide
  have hb : bucketRecords [recOk]
      ((mkWindow [recOk] (baseEpoch [recOk]) 1).second : ℤ) = [] := by
    norm_num [mkWindow, bucketRecords, truncInt, List.filter, recOk]
  have h := time_series_gap_free_zero_fill.2.1 [recOk] 1 _ hmem hb
  exact ⟨time_series_gap_free_zero_fill.1 [recOk] 1 (by decide),
    h.1, h.2.2.2.2.1⟩

/-- C1 counterexample: for the run with a single record at start offset
5 s and `total_duration = 5/2`, the observed bucket index is `5 > ⌈5/2⌉ = 3`,
yet the emitted windows cover exactly seconds `0..3` — there is no window
for second 5 and no emitted window contains the record (all counts are 0),
contradicting `upper = max(ceil(total_duration), max observed bucket
index)`. -/
theorem time_series_tail_dropped :
    truncInt 5 = 5 ∧ (⌈(5 / 2 : ℚ)⌉ : ℤ) = 3 ∧
      (compute_time_series [lateRecord] (5 / 2)).map (·.second) =
        [0, 1, 2, 3] ∧
      (5 : Nat) ∉ (compute_time_series [lateRecord] (5 / 2)).map (·.second) ∧
      ((compute_time_series [lateRecord] (5 / 2)).map (·.count)).sum = 0 := by
  have hmax : maxSec [lateRecord] (5 / 2) = 3 := by
    norm_num [maxSec, ceil_via_floor]
  have hsec : (compute_time_series [lateRecord] (5 / 2)).map (·.second) =
      [0, 1, 2, 3] := by
    rw [compute_time_series_map_second _ _ (by decide), hmax]
    decide
  have hb0 : bucketRecords [lateRecord] 0 = [] := by
    norm_num [bucketRecords, truncInt, List.filter, lateRecord]
  have hb1 : bucketRecords [lateRecord] 1 = [] := by
    norm_num [bucketRecords, truncInt, List.filter, lateRecord]
  have hb2 : bucketRecords [lateRecord] 2 = [] := by
    norm_num [bucketRecords, truncInt, List.filter, lateRecord]
  have hb3 : bucketRecords [lateRecord] 3 = [] := by
    norm_num [bucketRecords, truncInt, List.filter, lateRecord]
  refine ⟨by norm_num [truncInt], by norm_num [ceil_via_floor], hsec,
    by rw [hsec]; decide, ?_⟩
  rw [compute_time_series_map_count _ _ (by decide), hmax,
    show ((3 : ℤ) + 1).toNat = 4 from rfl,
    show List.range 4 = [0, 1, 2, 3] from rfl]
  rw [List.map_cons, List.map_cons, List.map_cons, List.map_cons,
    List.map_nil]
  rw [show ((0 : ℕ) : ℤ) = 0 from rfl, show ((1 : ℕ) : ℤ) = 1 from rfl,
    show ((2 : ℕ) : ℤ) = 2 from rfl, show ((3 : ℕ) : ℤ) = 3 from rfl]
  rw [hb0, hb1, hb2, hb3]
  rfl

/-- C1 amended: the emitted windows cover exactly the integer seconds
`[0, upper]` where `upper = ceil(total_duration)` whenever
`total_duration > 0`, and otherwise the maximum observed bucket index
(default 0); every bucket index in `[0, upper]` — in particular every
observed one — is covered by a window counting exactly its records, while
buckets past `upper` are dropped (see the counterexample). -/
theorem time_series_upper_amended (rs : List RequestRecord) (t : ℚ)
    (hne : rs ≠ []) :
    ((compute_time_series rs t).map (·.second) =
        List.range ((maxSec rs t + 1).toNat)) ∧
      (0 < t → maxSec rs t = ⌈t⌉) ∧
      (t ≤ 0 → maxSec rs t = maxKeyD (bucketKeys rs)) ∧
      (∀ i : ℤ, 0 ≤ i → i ≤ maxSec rs t →
        ∃ w ∈ compute_time_series rs t, (w.second : ℤ) = i ∧
          w.count = (bucketRecords rs i).length) := by
  refine ⟨compute_time_series_map_second rs t hne, ?_, ?_, ?_⟩
  · intro h
    rw [maxSec, if_pos h]
  · intro h
    rw [maxSec, if_neg (not_lt.mpr h)]
  · intro i h0 hle
    have hi : ((i.toNat : ℕ) : ℤ) = i := Int.toNat_of_nonneg h0
    refine ⟨mkWindow rs (baseEpoch rs) i.toNat, ?_, ?_, ?_⟩
    · rw [compute_time_series, if_neg (by simpa [List.isEmpty_iff] using hne)]
      refine List.mem_map.mpr ⟨i.toNat, List.mem_range.mpr ?_, rfl⟩
      omega
    · exact hi
    · show (bucketRecords rs ((i.toNat : ℕ) : ℤ)).length =
        (bucketRecords rs i).length
      rw [hi]

/-- Witness for C1's amended statement at the tail-record run: the range
upper bound is `⌈5/2⌉` and second 3 is covered. -/
theorem time_series_upper_amended_witness :
    maxSec [lateRecord] (5 / 2) = ⌈(5 / 2 : ℚ)⌉ ∧
      (∃ w ∈ compute_time_series [lateRecord] (5 / 2), (w.second : ℤ) = 3 ∧
        w.count = (bucketRecords [lateRecord] 3).length) := by
  have h := time_series_upper_amended [lateRecord] (5 / 2) (by decide)
  refine ⟨h.2.1 (by norm_num), h.2.2.2 3 (by norm_num) ?_⟩
  rw [h.2.1 (by norm_num)]
  norm_num [ceil_via_floor]

lemma mkRecord_index (i : Nat) (o : Outcome) : (mkRecord i o).index = i := by
  cases o <;> rfl

/-- Dispatch invariant: the index universe `0..total-1` is partitioned (as
a multiset) among pending, running, and finished attempts; free permits
plus outstanding attempts always account for exactly `concurrency` (the
gate is released exactly once per finished attempt, never leaked); every
finished record is the one the transport dictates for its index. -/
def DInv (tr : Nat → Outcome) (total conc : Nat) (s : DispatchState) : Prop :=
  s.pending.val + s.running.val + ↑(s.done.map (·.index)) =
      (Finset.range total).val ∧
    s.sem + s.running.card = conc ∧
    ∀ r ∈ s.done, ∃ i, r = mkRecord i (tr i)

lemma dInv_init (tr : Nat → Outcome) (total conc : Nat) :
    DInv tr total conc (initState total conc) := by
  refine ⟨?_, ?_, ?_⟩ <;> simp [initState]

lemma dInv_step {tr : Nat → Outcome} {total conc : Nat}
    {s s' : DispatchState} (h : DStep tr s s') (hI : DInv tr total conc s) :
    DInv tr total conc s' := by
  obtain ⟨hm, hsem, hdone⟩ := hI
  cases h with
  | start i s hp hs =>
    have hnd : (s.pending.val + s.running.val +
        ↑(s.done.map (·.index))).Nodup := by
      rw [hm]
      exact (Finset.range total).nodup
    have hiR : i ∉ s.running := by
      intro hiR
      have hcount := Multiset.nodup_iff_count_le_one.mp hnd i
      rw [Multiset.count_add, Multiset.count_add] at hcount
      have h1 : 0 < Multiset.count i s.pending.val :=
        Multiset.count_pos.mpr (Finset.mem_val.mpr hp)
      have h2 : 0 < Multiset.count i s.running.val :=
        Multiset.count_pos.mpr (Finset.mem_val.mpr hiR)
      omega
    refine ⟨?_, ?_, hdone⟩
    · show (s.pending.erase i).val + (insert i s.running).val +
          ↑(s.done.map (·.index)) = (Finset.range total).val
      rw [Finset.erase_val, Finset.insert_val_of_not_mem hiR, ← hm]
      have hip : i ∈ s.pending.val := Finset.mem_val.mpr hp
      rw [← Multiset.singleton_add, ← add_assoc,
        add_comm (s.pending.val.erase i) {i}, Multiset.singleton_add,
        Multiset.cons_erase hip]
    · show s.sem - 1 + (insert i s.running).card = conc
      rw [Finset.card_insert_of_not_mem hiR]
      omega
  | finish i s hr =>
    have hir : i ∈ s.running.val := Finset.mem_val.mpr hr
    have hcard : 0 < s.running.card := Finset.card_pos.mpr ⟨i, hr⟩
    refine ⟨?_, ?_, ?_⟩
    · show s.pending.val + (s.running.erase i).val +
          ↑((s.done ++ [mkRecord i (tr i)]).map (·.index)) =
          (Finset.range total).val
      rw [Finset.erase_val, List.map_append, ← hm]
      have : ((([mkRecord i (tr i)].map (·.index)) : List Nat) :
          Multiset Nat) = {i} := by
        simp [mkRecord_index]
      rw [← Multiset.coe_add, this]
      conv_rhs => rw [← Multiset.cons_erase hir]
      rw [← Multiset.singleton_add]
      abel
    · show s.sem + 1 + (s.running.erase i).card = conc
      rw [Finset.card_erase_of_mem hr]
      omega
    · intro r hrr
      rcases List.mem_append.mp hrr with h1 | h2
      · exact hdone r h1
      · exact ⟨i, by simpa using h2⟩

lemma reach_dInv {tr : Nat → Outcome} {total conc : Nat}
    {s : DispatchState} (h : Reach tr total conc s) :
    DInv tr total conc s := by
  induction h with
  | refl => exact dInv_init tr total conc
  | tail hab hbc ih =>
    exact dInv_step hbc ih

/-- C2: in every reachable scheduler state of a `total`/`concurrency`
dispatch (any `total ≥ 1`, `concurrency ≥ 1`, including
`concurrency > total`) at most `concurrency` attempts are outstanding;
free permits plus outstanding attempts always equal `concurrency` exactly
(each attempt's terminal transition releases the gate exactly once, so it
is never leaked), and no attempt terminates twice. -/
theorem dispatch_gate_bound (tr : Nat → Outcome) (total conc : Nat)
    (htotal : 1 ≤ total) (hconc : 1 ≤ conc) (s : DispatchState)
    (h : Reach tr total conc s) :
    s.running.card ≤ conc ∧ s.sem + s.running.card = conc ∧
      (s.done.map (·.index)).Nodup := by
  obtain ⟨hm, hsem, -⟩ := reach_dInv h
  have hnd : (s.pending.val + s.running.val +
      ↑(s.done.map (·.index))).Nodup := by
    rw [hm]
    exact (Finset.range total).nodup
  have hdnd : (s.done.map (·.index)).Nodup := by
    have hle : (↑(s.done.map (·.index)) : Multiset Nat) ≤
        s.pending.val + s.running.val + ↑(s.done.map (·.index)) :=
      le_add_self
    exact Multiset.coe_nodup.mp (Multiset.nodup_of_le hle hnd)
  exact ⟨by omega, hsem, hdnd⟩

/-- C3: when a dispatch completes (no pending, no outstanding attempt),
the record list holds exactly `total` records whose indices are exactly
`0..total-1`, each appearing once, regardless of which attempts the
transport failed. -/
theorem dispatch_all_indices (tr : Nat → Outcome) (total conc : Nat)
    (htotal : 1 ≤ total) (hconc : 1 ≤ conc) (s : DispatchState)
    (h : Reach tr total conc s) (hp : s.pending = ∅) (hr : s.running = ∅) :
    s.done.length = total ∧
      (s.done.map (·.index)).Perm (List.range total) := by
  obtain ⟨hm, -, -⟩ := reach_dInv h
  rw [hp, hr] at hm
  simp only [Finset.empty_val, zero_add] at hm
  rw [Finset.range_val, ← Multiset.coe_range] at hm
  have hperm : (s.done.map (·.index)).Perm (List.range total) :=
    Multiset.coe_eq_coe.mp hm
  have hlen := hperm.length_eq
  rw [List.length_map, List.length_range] at hlen
  exact ⟨hlen, hperm⟩

/-- C9: every record a dispatch produces either carries a status and an
elapsed time, no error, and `ok = true` exactly when the status lies in
`[200, 400)`; or carries an error message with status and elapsed absent
and `ok = false` — never a fabricated status on failure. -/
theorem dispatch_record_shape (tr : Nat → Outcome) (total conc : Nat)
    (s : DispatchState) (h : Reach tr total conc s) (r : RequestRecord)
    (hr : r ∈ s.done) :
    (∃ st el, r.status = some st ∧ r.time = some el ∧ r.error = none ∧
        (r.ok = true ↔ 200 ≤ st ∧ st < 400)) ∨
      (∃ msg, r.error = some msg ∧ r.status = none ∧ r.time = none ∧
        r.ok = false) := by
  obtain ⟨-, -, hdone⟩ := reach_dInv h
  obtain ⟨i, rfl⟩ := hdone r hr
  cases htr : tr i with
  | success st el bytes ep rel =>
    left
    refine ⟨st, el, ?_, ?_, ?_, ?_⟩ <;> simp [mkRecord, htr]
  | failure msg ep rel =>
    right
    exact ⟨msg, by simp [mkRecord, htr]⟩

/-- A demo transport: index 0 succeeds with status 200, every other index
fails at the transport level. -/
def trW : Nat → Outcome
  | 0 => .success 200 (1 / 10) 5 1000 0
  | _ => .failure "Cannot connect to host" 1001 (1 / 2)

/-- The state of a finished `total = 2`, `concurrency = 3` run of `trW`
along the schedule start 0, start 1, finish 0, finish 1. -/
def dsFinal : DispatchState :=
  ⟨((Finset.range 2).erase 0).erase 1,
    ((insert 1 (insert 0 (∅ : Finset Nat))).erase 0).erase 1,
    ([] ++ [mkRecord 0 (trW 0)]) ++ [mkRecord 1 (trW 1)],
    3 - 1 - 1 + 1 + 1⟩

lemma reach_demo : Reach trW 2 3 dsFinal := by
  refine Relation.ReflTransGen.head
    (DStep.start 0 _ (by decide) (by decide)) ?_
  refine Relation.ReflTransGen.head
    (DStep.start 1 _ (by decide) (by decide)) ?_
  refine Relation.ReflTransGen.head (DStep.finish 0 _ (by decide)) ?_
  refine Relation.ReflTransGen.head (DStep.finish 1 _ (by decide)) ?_
  exact Relation.ReflTransGen.refl

/-- Witness for C2 on a finished 2-request run at concurrency 3
(concurrency exceeding total). -/
theorem dispatch_gate_bound_witness :
    dsFinal.running.card ≤ 3 ∧ dsFinal.sem + dsFinal.running.card = 3 ∧
      (dsFinal.done.map (·.index)).Nodup :=
  dispatch_gate_bound trW 2 3 (by decide) (by decide) dsFinal reach_demo

/-- Witness for C3 on the same finished run: two records, indices `0, 1`. -/
theorem dispatch_all_indices_witness :
    dsFinal.done.length = 2 ∧
      (dsFinal.done.map (·.index)).Perm (List.range 2) :=
  dispatch_all_indices trW 2 3 (by decide) (by decide) dsFinal reach_demo
    (by decide) (by decide)

/-- Witness for C9 on the finished run's first record. -/
theorem dispatch_record_shape_witness :
    (∃ st el, (mkRecord 0 (trW 0)).status = some st ∧
        (mkRecord 0 (trW 0)).time = some el ∧
        (mkRecord 0 (trW 0)).error = none ∧
        ((mkRecord 0 (trW 0)).ok = true ↔ 200 ≤ st ∧ st < 400)) ∨
      (∃ msg, (mkRecord 0 (trW 0)).error = some msg ∧
        (mkRecord 0 (trW 0)).status = none ∧
        (mkRecord 0 (trW 0)).time = none ∧
        (mkRecord 0 (trW 0)).ok = false) :=
  dispatch_record_shape trW 2 3 dsFinal reach_demo (mkRecord 0 (trW 0))
    (by simp [dsFinal])

end Sirius
